import Mathlib

/-!
Shallow embedding of lib/include/srslte/common/task.h, class srslte::inplace_task:
a fixed-capacity, type-erased, move-only callable container dispatching through a
hand-built table of three function pointers (call / move / dtor), one table per
erased payload type plus one shared empty-sentinel table.

Modelling choices:
* A payload (the C++ object of decayed type FunT stored in the aligned buffer) is
  a value of Payload, carrying the identity of its concrete C++ type (tid; distinct
  closure types have distinct tids) together with its call behaviour
  run : external-state -> argument -> result x external-state, so that result value
  and side effects of a direct call are both captured.
* The storage buffer holds at most one live payload: Option (Payload ...); none
  models storage with no live object in it (uninitialized or already-destroyed
  bytes).  The compile-time capacity and alignment static assertions of lines
  110-111 have no runtime content and are outside the embedding.
* A dispatch-table pointer is an OperPtr value: either the unique empty table
  built by get_empty (line 45) or the unique per-type table built by get
  (line 55).  Pointer equality of the C++ function-local statics is therefore
  equality of OperPtr values, and the pointer is never null by construction.
* A table operation applied to storage inconsistent with that table, which is
  undefined behaviour in C++ (casting dead or foreign bytes), is modelled as
  failure: none for move and dtor, the invalidAccess error for call.
* Destructor side effects are modelled by the Nat returned by dtor_oper: how many
  live payloads the operation destroyed (1 exactly when a per-type table destroys
  the live object in the slot).  This matches the test idiom of a payload whose
  destructor increments a counter, where relocation transfers the live object
  without counting as a destruction of it.
-/

namespace srslte

/-- A concrete callable payload: tid identifies its concrete C++ type and run is
its call behaviour acting on an explicit external side-effect state. -/
structure Payload (σ R A : Type) where
  tid : Nat
  run : σ → A → R × σ

/-- Identity of a dispatch table, standing for the address of the function-local
static of task.h: the empty table of oper_table_t::get_empty, or the per-type
table of oper_table_t::get for the payload type with identity tid. -/
inductive OperPtr : Type where
  | empty_oper : OperPtr
  | table : Nat → OperPtr

deriving instance DecidableEq for OperPtr

/-- Failures observable through a dispatch-table call: the empty table of line 48
throws std::bad_function_call; invalidAccess marks the undefined behaviour of
interpreting storage that holds no live object of the table's type. -/
inductive TaskError : Type where
  | badFunctionCall : TaskError
  | invalidAccess : TaskError

deriving instance DecidableEq for TaskError

/-- The call operation of a dispatch table (task.h lines 48 and 59): the empty
table throws bad_function_call; the per-type table casts the slot to its payload
type and invokes the stored object on the forwarded arguments. -/
def call_oper {σ R A : Type} (op : OperPtr) (slot : Option (Payload σ R A)) (s : σ) (x : A) :
    Except TaskError (R × σ) :=
  match op with
  | OperPtr.empty_oper => Except.error TaskError.badFunctionCall
  | OperPtr.table t =>
    match slot with
    | some p =>
      if p.tid = t then Except.ok (p.run s x) else Except.error TaskError.invalidAccess
    | none => Except.error TaskError.invalidAccess

/-- The move operation of a dispatch table (task.h lines 49 and 60-63): the empty
table's move is a no-op leaving both slots as they are; the per-type table
move-constructs the source object into the destination slot and destroys the
source object, so the live payload is relocated intact. -/
def move_oper {σ R A : Type} (op : OperPtr) (src dest : Option (Payload σ R A)) :
    Option (Option (Payload σ R A) × Option (Payload σ R A)) :=
  match op with
  | OperPtr.empty_oper => some (src, dest)
  | OperPtr.table t =>
    match src with
    | some p => if p.tid = t then some (none, some p) else none
    | none => none

/-- The dtor operation of a dispatch table (task.h lines 51 and 65): the empty
table's dtor is a no-op destroying nothing; the per-type table destroys the live
object in the slot, reported as a destruction count of 1. -/
def dtor_oper {σ R A : Type} (op : OperPtr) (slot : Option (Payload σ R A)) :
    Option (Option (Payload σ R A) × Nat) :=
  match op with
  | OperPtr.empty_oper => some (slot, 0)
  | OperPtr.table t =>
    match slot with
    | some p => if p.tid = t then some (none, 1) else none
    | none => none

/-- The table registry entry for a payload type (oper_table_t::get, lines 55-67):
the unique per-type table for the type with identity tid. -/
def oper_table_get (tid : Nat) : OperPtr := OperPtr.table tid

/-- The registry's empty sentinel (oper_table_t::get_empty / empty_oper,
lines 45-53 and 92). -/
def oper_table_get_empty : OperPtr := OperPtr.empty_oper

/-- The container of task.h lines 96-170: a storage buffer and a dispatch-table
pointer.  There is no null table state: oper_ptr is always one of the registry's
tables. -/
structure inplace_task (σ R A : Type) where
  buffer : Option (Payload σ R A)
  oper_ptr : OperPtr

namespace inplace_task

/-- Default construction (line 103): buffer uninitialized, table pointer bound to
the empty sentinel. -/
def mk_default {σ R A : Type} : inplace_task σ R A :=
  { buffer := none, oper_ptr := OperPtr.empty_oper }

/-- Construction from a payload (lines 105-115): the payload is constructed into
the buffer and the table pointer is bound to the payload type's registry entry. -/
def mk_from {σ R A : Type} (p : Payload σ R A) : inplace_task σ R A :=
  { buffer := some p, oper_ptr := oper_table_get p.tid }

/-- Move construction (lines 117-122): adopt the source's table pointer, reset
the source's pointer to the empty sentinel, then relocate the source buffer into
the (uninitialized) new buffer through the adopted table.  Returns the pair
(newly constructed task, source task after the move). -/
def move_construct {σ R A : Type} (other : inplace_task σ R A) :
    Option (inplace_task σ R A × inplace_task σ R A) := do
  let op := other.oper_ptr
  let (src1, dest1) ← move_oper op other.buffer none
  pure ({ buffer := dest1, oper_ptr := op },
        { buffer := src1, oper_ptr := OperPtr.empty_oper })

/-- Destruction (line 130): route through the current table's dtor exactly once;
result is the number of live payloads destroyed. -/
def destruct {σ R A : Type} (t : inplace_task σ R A) : Option Nat := do
  let (_, k) ← dtor_oper t.oper_ptr t.buffer
  pure k

/-- Move assignment between two distinct containers (lines 132-139): first
destroy the destination's current contents through its own pre-assignment table
(line 134), then adopt the source's table, reset the source to the empty
sentinel, and relocate the source buffer into the destination buffer.  Returns
(new destination, source after the move, destruction count of line 134). -/
def move_assign {σ R A : Type} (dst src : inplace_task σ R A) :
    Option (inplace_task σ R A × inplace_task σ R A × Nat) := do
  let (buf1, k) ← dtor_oper dst.oper_ptr dst.buffer
  let op := src.oper_ptr
  let (src1, dest1) ← move_oper op src.buffer buf1
  pure ({ buffer := dest1, oper_ptr := op },
        { buffer := src1, oper_ptr := OperPtr.empty_oper }, k)

/-- Move assignment of a container from itself, lines 132-139 traced with other
aliasing this: line 134 destroys the held payload through the container's own
table; line 135 copies the pointer onto itself; line 136 resets the (aliased)
source pointer, leaving the container on the empty sentinel; line 137 then
dispatches move through the now-empty table, a no-op.  Returns (container after
assignment, destruction count of line 134). -/
def self_move_assign {σ R A : Type} (a : inplace_task σ R A) :
    Option (inplace_task σ R A × Nat) := do
  let (buf1, k) ← dtor_oper a.oper_ptr a.buffer
  pure ({ buffer := buf1, oper_ptr := OperPtr.empty_oper }, k)

/-- Invocation (line 151): forward the arguments through the bound table's call.
The body mutates no member, so only the external state can change. -/
def call {σ R A : Type} (t : inplace_task σ R A) (s : σ) (x : A) : Except TaskError (R × σ) :=
  call_oper t.oper_ptr t.buffer s x

/-- Invocation viewed as a state transformer on the container: line 151 assigns
to no member, so the container after the call is the container before it,
whether the call succeeded or threw. -/
def call_state {σ R A : Type} (t : inplace_task σ R A) (s : σ) (x : A) :
    Except TaskError (R × σ) × inplace_task σ R A :=
  (call t s x, t)

/-- is_empty (line 153): pointer comparison of the bound table against the
registry's empty sentinel. -/
def is_empty {σ R A : Type} (t : inplace_task σ R A) : Bool :=
  decide (t.oper_ptr = OperPtr.empty_oper)

/-- swap (lines 155-165).  The flag same models the pointer test this == &other
of line 157: when it holds the guard returns immediately and both containers are
untouched.  Otherwise: relocate this buffer into a stack temporary through this
table, relocate the other buffer into this buffer through the other table,
relocate the temporary into the other buffer through this (not yet exchanged)
table, and finally exchange the two table pointers. -/
def swap {σ R A : Type} (same : Bool) (a b : inplace_task σ R A) :
    Option (inplace_task σ R A × inplace_task σ R A) :=
  if same then some (a, b)
  else do
    let (abuf1, tmp1) ← move_oper a.oper_ptr a.buffer none
    let (bbuf1, abuf2) ← move_oper b.oper_ptr b.buffer abuf1
    let (_, bbuf2) ← move_oper a.oper_ptr tmp1 bbuf1
    pure ({ buffer := abuf2, oper_ptr := b.oper_ptr },
          { buffer := bbuf2, oper_ptr := a.oper_ptr })

end inplace_task

/-- The slot-table consistency invariant of the spec: an empty-sentinel table
means no live object in the buffer; a per-type table means exactly one live
object of exactly that table's type. -/
def WF {σ R A : Type} (t : inplace_task σ R A) : Prop :=
  match t.oper_ptr, t.buffer with
  | OperPtr.empty_oper, none => True
  | OperPtr.empty_oper, some _ => False
  | OperPtr.table _, none => False
  | OperPtr.table tid, some p => p.tid = tid

/-- Number of live payloads held by a container: 1 when the buffer holds a live
object, else 0. -/
def lives {σ R A : Type} (t : inplace_task σ R A) : Nat :=
  if t.buffer.isSome then 1 else 0

/-- A well-formed container is, as a value, either the default-constructed
container or a container constructed from some payload. -/
theorem wf_cases {σ R A : Type} (t : inplace_task σ R A) (h : WF t) :
    t = inplace_task.mk_default ∨ ∃ p, t = inplace_task.mk_from p := by
  obtain ⟨buf, op⟩ := t
  cases op with
  | empty_oper =>
    cases buf with
    | none => exact Or.inl rfl
    | some p => exact absurd h (by simp [WF])
  | table tid =>
    cases buf with
    | none => exact absurd h (by simp [WF])
    | some p =>
      have htid : p.tid = tid := h
      subst htid
      exact Or.inr ⟨p, rfl⟩

theorem wf_mk_default {σ R A : Type} : WF (inplace_task.mk_default : inplace_task σ R A) :=
  trivial

theorem wf_mk_from {σ R A : Type} (p : Payload σ R A) : WF (inplace_task.mk_from p) := rfl

theorem lives_mk_default {σ R A : Type} :
    lives (inplace_task.mk_default : inplace_task σ R A) = 0 := rfl

theorem lives_mk_from {σ R A : Type} (p : Payload σ R A) :
    lives (inplace_task.mk_from p) = 1 := rfl

theorem is_empty_mk_default {σ R A : Type} :
    (inplace_task.mk_default : inplace_task σ R A).is_empty = true := rfl

theorem is_empty_mk_from {σ R A : Type} (p : Payload σ R A) :
    (inplace_task.mk_from p).is_empty = false := rfl

theorem call_mk_from {σ R A : Type} (p : Payload σ R A) (s : σ) (x : A) :
    (inplace_task.mk_from p).call s x = Except.ok (p.run s x) := by
  simp [inplace_task.call, inplace_task.mk_from, call_oper, oper_table_get]

theorem call_mk_default {σ R A : Type} (s : σ) (x : A) :
    (inplace_task.mk_default : inplace_task σ R A).call s x =
      Except.error TaskError.badFunctionCall := rfl

theorem move_construct_eq {σ R A : Type} {a : inplace_task σ R A} (h : WF a) :
    inplace_task.move_construct a = some (a, inplace_task.mk_default) := by
  rcases wf_cases a h with rfl | ⟨p, rfl⟩
  · rfl
  · simp [inplace_task.move_construct, inplace_task.mk_from, inplace_task.mk_default,
      move_oper, oper_table_get]

theorem destruct_eq {σ R A : Type} {t : inplace_task σ R A} (h : WF t) :
    inplace_task.destruct t = some (lives t) := by
  rcases wf_cases t h with rfl | ⟨p, rfl⟩
  · rfl
  · simp [inplace_task.destruct, inplace_task.mk_from, dtor_oper, oper_table_get, lives]

theorem move_assign_eq {σ R A : Type} {d s : inplace_task σ R A} (hd : WF d) (hs : WF s) :
    inplace_task.move_assign d s = some (s, inplace_task.mk_default, lives d) := by
  rcases wf_cases d hd with rfl | ⟨p, rfl⟩ <;> rcases wf_cases s hs with rfl | ⟨q, rfl⟩ <;>
    simp [inplace_task.move_assign, inplace_task.mk_from, inplace_task.mk_default,
      dtor_oper, move_oper, oper_table_get, lives]

theorem self_move_assign_eq {σ R A : Type} {a : inplace_task σ R A} (h : WF a) :
    inplace_task.self_move_assign a = some (inplace_task.mk_default, lives a) := by
  rcases wf_cases a h with rfl | ⟨p, rfl⟩
  · rfl
  · simp [inplace_task.self_move_assign, inplace_task.mk_from, inplace_task.mk_default,
      dtor_oper, oper_table_get, lives]

theorem swap_eq {σ R A : Type} {a b : inplace_task σ R A} (ha : WF a) (hb : WF b) :
    inplace_task.swap false a b = some (b, a) := by
  rcases wf_cases a ha with rfl | ⟨p, rfl⟩ <;> rcases wf_cases b hb with rfl | ⟨q, rfl⟩ <;>
    simp [inplace_task.swap, inplace_task.mk_from, inplace_task.mk_default,
      move_oper, oper_table_get]

theorem call_no_invalid_access {σ R A : Type} {t : inplace_task σ R A} (h : WF t)
    (s : σ) (x : A) :
    inplace_task.call t s x ≠ Except.error TaskError.invalidAccess := by
  rcases wf_cases t h with rfl | ⟨p, rfl⟩
  · simp [call_mk_default]
  · simp [call_mk_from]

/-- A collection of containers alive at some point of an execution. -/
abbrev World (σ R A : Type) := List (inplace_task σ R A)

/-- One step of a lifecycle execution over a collection of containers together
with a running count of payload destructions: create an empty container,
move-construct a new container from an existing one, destroy a container,
move-assign between two distinct containers, move-assign a container from
itself, swap two distinct containers, or swap a container with itself (the
guarded no-op of line 157).  The perm step only reorders the collection so that
any containers can be selected for an operation. -/
inductive Step {σ R A : Type} : World σ R A × Nat → World σ R A × Nat → Prop where
  | perm {w w' : World σ R A} {n : Nat} :
      List.Perm w w' → Step (w, n) (w', n)
  | new_task {w : World σ R A} {n : Nat} :
      Step (w, n) (inplace_task.mk_default :: w, n)
  | move_construct_step {a b a' : inplace_task σ R A} {w : World σ R A} {n : Nat} :
      inplace_task.move_construct a = some (b, a') →
      Step (a :: w, n) (b :: a' :: w, n)
  | destroy {a : inplace_task σ R A} {w : World σ R A} {n k : Nat} :
      inplace_task.destruct a = some k →
      Step (a :: w, n) (w, n + k)
  | move_assign_step {a b a' b' : inplace_task σ R A} {w : World σ R A} {n k : Nat} :
      inplace_task.move_assign a b = some (a', b', k) →
      Step (a :: b :: w, n) (a' :: b' :: w, n + k)
  | self_assign_step {a a' : inplace_task σ R A} {w : World σ R A} {n k : Nat} :
      inplace_task.self_move_assign a = some (a', k) →
      Step (a :: w, n) (a' :: w, n + k)
  | swap_step {a b a' b' : inplace_task σ R A} {w : World σ R A} {n : Nat} :
      inplace_task.swap false a b = some (a', b') →
      Step (a :: b :: w, n) (a' :: b' :: w, n)
  | swap_self_step {a : inplace_task σ R A} {w : World σ R A} {n : Nat} :
      inplace_task.swap true a a = some (a, a) →
      Step (a :: w, n) (a :: w, n)

/-- A container derived from the one original payload p: well formed, and its
buffer holds either nothing or p itself. -/
def OkTask {σ R A : Type} (p : Payload σ R A) (t : inplace_task σ R A) : Prop :=
  WF t ∧ (t.buffer = none ∨ t.buffer = some p)

/-- Execution invariant for a lifecycle started from one container holding the
payload p: every container is consistent and derived from p, and destructions
so far plus live copies of p equal one. -/
def Inv {σ R A : Type} (p : Payload σ R A) (c : World σ R A × Nat) : Prop :=
  (∀ t ∈ c.1, OkTask p t) ∧ c.2 + (List.map lives c.1).sum = 1

theorem okTask_mk_default {σ R A : Type} (p : Payload σ R A) :
    OkTask p (inplace_task.mk_default : inplace_task σ R A) :=
  ⟨wf_mk_default, Or.inl rfl⟩

theorem step_preserves_inv {σ R A : Type} (p : Payload σ R A)
    {c c' : World σ R A × Nat} (hs : Step c c') (hinv : Inv p c) : Inv p c' := by
  obtain ⟨hok, hsum⟩ := hinv
  cases hs with
  | perm hp =>
    exact ⟨fun t ht => hok t (hp.mem_iff.mpr ht), by rw [← (hp.map lives).sum_eq]; exact hsum⟩
  | new_task =>
    refine ⟨?_, ?_⟩
    · intro t ht
      rcases List.mem_cons.mp ht with rfl | ht
      · exact okTask_mk_default p
      · exact hok t ht
    · simpa [lives_mk_default] using hsum
  | move_construct_step h =>
    rename_i a b a' w n
    have hoka := hok a (List.mem_cons_self a w)
    rw [move_construct_eq hoka.1] at h
    simp only [Option.some.injEq, Prod.mk.injEq] at h
    obtain ⟨rfl, rfl⟩ := h
    refine ⟨?_, ?_⟩
    · intro t ht
      rcases List.mem_cons.mp ht with rfl | ht
      · exact hoka
      · rcases List.mem_cons.mp ht with rfl | ht
        · exact okTask_mk_default p
        · exact hok t (List.mem_cons_of_mem a ht)
    · simp only [List.map_cons, List.sum_cons, lives_mk_default] at hsum ⊢
      omega
  | destroy h =>
    rename_i a w n k
    have hoka := hok a (List.mem_cons_self a w)
    rw [destruct_eq hoka.1] at h
    simp only [Option.some.injEq] at h
    subst h
    refine ⟨fun t ht => hok t (List.mem_cons_of_mem a ht), ?_⟩
    simp only [List.map_cons, List.sum_cons] at hsum
    show n + lives a + (List.map lives w).sum = 1
    omega
  | move_assign_step h =>
    rename_i a b a' b' w n k
    have hoka := hok a (List.mem_cons_self a (b :: w))
    have hokb := hok b (List.mem_cons_of_mem a (List.mem_cons_self b w))
    rw [move_assign_eq hoka.1 hokb.1] at h
    simp only [Option.some.injEq, Prod.mk.injEq] at h
    obtain ⟨rfl, rfl, rfl⟩ := h
    refine ⟨?_, ?_⟩
    · intro t ht
      rcases List.mem_cons.mp ht with rfl | ht
      · exact hokb
      · rcases List.mem_cons.mp ht with rfl | ht
        · exact okTask_mk_default p
        · exact hok t (List.mem_cons_of_mem a (List.mem_cons_of_mem b ht))
    · simp only [List.map_cons, List.sum_cons, lives_mk_default] at hsum ⊢
      omega
  | self_assign_step h =>
    rename_i a a' w n k
    have hoka := hok a (List.mem_cons_self a w)
    rw [self_move_assign_eq hoka.1] at h
    simp only [Option.some.injEq, Prod.mk.injEq] at h
    obtain ⟨rfl, rfl⟩ := h
    refine ⟨?_, ?_⟩
    · intro t ht
      rcases List.mem_cons.mp ht with rfl | ht
      · exact okTask_mk_default p
      · exact hok t (List.mem_cons_of_mem a ht)
    · simp only [List.map_cons, List.sum_cons, lives_mk_default] at hsum ⊢
      omega
  | swap_step h =>
    rename_i a b a' b' w n
    have hoka := hok a (List.mem_cons_self a (b :: w))
    have hokb := hok b (List.mem_cons_of_mem a (List.mem_cons_self b w))
    rw [swap_eq hoka.1 hokb.1] at h
    simp only [Option.some.injEq, Prod.mk.injEq] at h
    obtain ⟨rfl, rfl⟩ := h
    refine ⟨?_, ?_⟩
    · intro t ht
      rcases List.mem_cons.mp ht with rfl | ht
      · exact hokb
      · rcases List.mem_cons.mp ht with rfl | ht
        · exact hoka
        · exact hok t (List.mem_cons_of_mem a (List.mem_cons_of_mem b ht))
    · simp only [List.map_cons, List.sum_cons] at hsum ⊢
      omega
  | swap_self_step h =>
    exact ⟨hok, hsum⟩

/-- Inv is preserved along any execution. -/
theorem steps_preserve_inv {σ R A : Type} (p : Payload σ R A)
    {c c' : World σ R A × Nat} (h : Relation.ReflTransGen Step c c') (hc : Inv p c) :
    Inv p c' := by
  induction h with
  | refl => exact hc
  | tail _ hstep ih => exact step_preserves_inv p hstep ih

/-- A concrete payload for witnesses: a closure capturing x = 5 and returning
x * 2 (spec scenario 1), with no effect on the external state. -/
def pFive : Payload Nat Nat Unit := { tid := 0, run := fun s _ => (5 * 2, s) }

/-- A concrete payload for witnesses: a callable returning 1. -/
def qOne : Payload Nat Nat Unit := { tid := 1, run := fun s _ => (1, s) }

/-- A concrete payload for witnesses: a callable returning 2, of a concrete
type distinct from that of qOne. -/
def qTwo : Payload Nat Nat Unit := { tid := 2, run := fun s _ => (2, s) }

/-- Claim C1: for every callable f matching the configured signature (the
capacity and alignment constraints are compile-time static assertions with no
runtime content), constructing an inplace_task from f and invoking the
container yields the same result and the same effect on the external state as
invoking f directly with those arguments. -/
theorem invoke_identity {σ R A : Type} (p : Payload σ R A) (s : σ) (x : A) :
    (inplace_task.mk_from p).call s x = Except.ok (p.run s x) :=
  call_mk_from p s x

/-- Claim C2: a default-constructed container reports is_empty; invoking any
container whose table is the empty sentinel (default-constructed or moved-from
containers are exactly those) fails with bad_function_call, returned to the
caller rather than swallowed; and this is the only runtime error: invoking a
well-formed non-empty container always succeeds. -/
theorem empty_invoke_fails {σ R A : Type} (t : inplace_task σ R A) (s : σ) (x : A)
    (h : t.is_empty = true) :
    (inplace_task.mk_default : inplace_task σ R A).is_empty = true ∧
    inplace_task.call t s x = Except.error TaskError.badFunctionCall ∧
    (∀ u : inplace_task σ R A, WF u → u.is_empty = false →
      ∀ s1 x1, ∃ r, inplace_task.call u s1 x1 = Except.ok r) := by
  have hop : t.oper_ptr = OperPtr.empty_oper := of_decide_eq_true h
  refine ⟨rfl, ?_, ?_⟩
  · simp [inplace_task.call, call_oper, hop]
  · intro u hu hne s1 x1
    rcases wf_cases u hu with rfl | ⟨q, rfl⟩
    · simp [is_empty_mk_default] at hne
    · exact ⟨q.run s1 x1, call_mk_from q s1 x1⟩

/-- Witness for C2 at the default-constructed container. -/
theorem empty_invoke_fails_witness :
    (inplace_task.mk_default : inplace_task Nat Nat Unit).is_empty = true ∧
    inplace_task.call (inplace_task.mk_default : inplace_task Nat Nat Unit) 0 () =
      Except.error TaskError.badFunctionCall :=
  ⟨rfl, (empty_invoke_fails (inplace_task.mk_default : inplace_task Nat Nat Unit) 0 () rfl).2.1⟩

/-- Claim C3: after move-construction from a, or move-assignment into a
distinct destination d, the source a is empty (and well formed, so safe to
destroy with no payload destroyed, or to reuse), and the container that
received the state behaves under invocation exactly as a did before the move.
The last two conjuncts also record that both operations succeed on well-formed
inputs, with a left exactly in the default-constructed state. -/
theorem move_empties_source {σ R A : Type} (a d : inplace_task σ R A)
    (ha : WF a) (hd : WF d) :
    (∀ b a1, inplace_task.move_construct a = some (b, a1) →
      a1.is_empty = true ∧ WF a1 ∧ inplace_task.destruct a1 = some 0 ∧
      ∀ s x, inplace_task.call b s x = inplace_task.call a s x) ∧
    (∀ d1 a1 k, inplace_task.move_assign d a = some (d1, a1, k) →
      a1.is_empty = true ∧ WF a1 ∧ inplace_task.destruct a1 = some 0 ∧
      ∀ s x, inplace_task.call d1 s x = inplace_task.call a s x) ∧
    inplace_task.move_construct a = some (a, inplace_task.mk_default) ∧
    inplace_task.move_assign d a = some (a, inplace_task.mk_default, lives d) := by
  refine ⟨?_, ?_, move_construct_eq ha, move_assign_eq hd ha⟩
  · intro b a1 h
    rw [move_construct_eq ha] at h
    simp only [Option.some.injEq, Prod.mk.injEq] at h
    obtain ⟨rfl, rfl⟩ := h
    exact ⟨rfl, trivial, rfl, fun s x => rfl⟩
  · intro d1 a1 k h
    rw [move_assign_eq hd ha] at h
    simp only [Option.some.injEq, Prod.mk.injEq] at h
    obtain ⟨rfl, rfl, rfl⟩ := h
    exact ⟨rfl, trivial, rfl, fun s x => rfl⟩

/-- Witness for C3 at a container holding the concrete payload pFive. -/
theorem move_empties_source_witness :
    WF (inplace_task.mk_from pFive) ∧
    inplace_task.move_construct (inplace_task.mk_from pFive) =
      some (inplace_task.mk_from pFive, inplace_task.mk_default) ∧
    (inplace_task.mk_from pFive).call 0 () = Except.ok (10, 0) :=
  ⟨rfl,
    (move_empties_source (inplace_task.mk_from pFive) inplace_task.mk_default rfl trivial).2.2.1,
    rfl⟩

/-- Claim C4: over every sequence of container creations, move-constructions,
move-assignments (including from self), swaps (including the guarded
self-swap) and destructions that starts from one container constructed from
the payload p and ends with every container destroyed, the payload's
destructor runs exactly once in total. -/
theorem exactly_once_destruction {σ R A : Type} (p : Payload σ R A) (n : Nat)
    (h : Relation.ReflTransGen Step ([inplace_task.mk_from p], 0) ([], n)) :
    n = 1 := by
  have h0 : Inv p ([inplace_task.mk_from p], 0) := by
    refine ⟨?_, by simp [lives_mk_from]⟩
    intro t ht
    obtain rfl := List.mem_singleton.mp ht
    exact ⟨wf_mk_from p, Or.inr rfl⟩
  obtain ⟨-, hsum⟩ := steps_preserve_inv p h h0
  simpa using hsum

/-- A concrete payload for the C4 witness. -/
def pC4 : Payload Nat Nat Unit := { tid := 0, run := fun s _ => (s, s) }

/-- Spec scenario 3 as a concrete execution: construct A from a payload, move
A into a new container B, destroy A (now empty, destroying nothing), destroy B
(destroying the payload); the destruction counter ends at 1. -/
theorem traceC4 :
    Relation.ReflTransGen Step ([inplace_task.mk_from pC4], 0) ([], 1) := by
  have s1 : Step ([inplace_task.mk_from pC4], (0 : Nat))
      ([inplace_task.mk_from pC4, inplace_task.mk_default], 0) :=
    Step.move_construct_step rfl
  have sp : Step ([inplace_task.mk_from pC4, inplace_task.mk_default], (0 : Nat))
      ([inplace_task.mk_default, inplace_task.mk_from pC4], 0) :=
    Step.perm (List.Perm.swap _ _ _)
  have s2 : Step ([inplace_task.mk_default, inplace_task.mk_from pC4], (0 : Nat))
      ([inplace_task.mk_from pC4], 0 + 0) :=
    Step.destroy rfl
  have s3 : Step ([inplace_task.mk_from pC4], (0 + 0 : Nat)) ([], 0 + 0 + 1) :=
    Step.destroy rfl
  exact Relation.ReflTransGen.head s1 (Relation.ReflTransGen.head sp
    (Relation.ReflTransGen.head s2 (Relation.ReflTransGen.head s3 Relation.ReflTransGen.refl)))

/-- Witness for C4 at the concrete execution of spec scenario 3. -/
theorem exactly_once_destruction_witness :
    Relation.ReflTransGen Step ([inplace_task.mk_from pC4], 0) ([], 1) ∧ (1 : Nat) = 1 :=
  ⟨traceC4, exactly_once_destruction pC4 1 traceC4⟩

/-- Claim C5: swapping two distinct well-formed containers exchanges their
full state, so afterwards each container behaves under invocation exactly as
the other did before, and the live payloads afterwards are exactly the live
payloads before, relocated but neither duplicated nor destroyed (the result is
literally the swapped pair of the original container states); self-swap is the
guarded no-op of line 157, leaving the container unchanged. -/
theorem swap_exchanges_behavior {σ R A : Type} (a b : inplace_task σ R A)
    (ha : WF a) (hb : WF b) :
    inplace_task.swap false a b = some (b, a) ∧
    inplace_task.swap true a a = some (a, a) ∧
    (∀ a1 b1, inplace_task.swap false a b = some (a1, b1) →
      (∀ s x, inplace_task.call a1 s x = inplace_task.call b s x) ∧
      (∀ s x, inplace_task.call b1 s x = inplace_task.call a s x) ∧
      a1.buffer = b.buffer ∧ b1.buffer = a.buffer) := by
  refine ⟨swap_eq ha hb, rfl, ?_⟩
  intro a1 b1 h
  rw [swap_eq ha hb] at h
  simp only [Option.some.injEq, Prod.mk.injEq] at h
  obtain ⟨rfl, rfl⟩ := h
  exact ⟨fun s x => rfl, fun s x => rfl, rfl, rfl⟩

/-- Witness for C5 at containers holding callables returning 1 and 2: after
the swap, invoking the first yields 2 and invoking the second yields 1. -/
theorem swap_exchanges_behavior_witness :
    WF (inplace_task.mk_from qOne) ∧ WF (inplace_task.mk_from qTwo) ∧
    inplace_task.swap false (inplace_task.mk_from qOne) (inplace_task.mk_from qTwo) =
      some (inplace_task.mk_from qTwo, inplace_task.mk_from qOne) ∧
    (inplace_task.mk_from qTwo).call 0 () = Except.ok (2, 0) ∧
    (inplace_task.mk_from qOne).call 0 () = Except.ok (1, 0) :=
  ⟨rfl, rfl,
    (swap_exchanges_behavior (inplace_task.mk_from qOne) (inplace_task.mk_from qTwo) rfl rfl).1,
    rfl, rfl⟩

/-- Claim C6: the slot-table consistency invariant.  The dispatch pointer is a
total OperPtr value (there is no null state), the empty sentinel means no live
object in the slot while a per-type table means exactly one live object of its
type (the WF predicate), and the predicate is established by default and
payload construction and preserved by move-construction, move-assignment (also
from self), swap, and invocation, which moreover leaves the container
unchanged and never commits the undefined access of a table applied to an
inconsistent slot. -/
theorem slot_table_consistency {σ R A : Type} (p : Payload σ R A)
    (a b : inplace_task σ R A) (ha : WF a) (hb : WF b) :
    WF (inplace_task.mk_default : inplace_task σ R A) ∧
    WF (inplace_task.mk_from p) ∧
    (∀ b1 a1, inplace_task.move_construct a = some (b1, a1) → WF b1 ∧ WF a1) ∧
    (∀ d1 s1 k, inplace_task.move_assign a b = some (d1, s1, k) → WF d1 ∧ WF s1) ∧
    (∀ a1 k, inplace_task.self_move_assign a = some (a1, k) → WF a1) ∧
    (∀ a1 b1, inplace_task.swap false a b = some (a1, b1) → WF a1 ∧ WF b1) ∧
    (∀ s x, inplace_task.call_state a s x = (inplace_task.call a s x, a) ∧
      inplace_task.call a s x ≠ Except.error TaskError.invalidAccess) := by
  refine ⟨trivial, wf_mk_from p, ?_, ?_, ?_, ?_, ?_⟩
  · intro b1 a1 h
    rw [move_construct_eq ha] at h
    simp only [Option.some.injEq, Prod.mk.injEq] at h
    obtain ⟨rfl, rfl⟩ := h
    exact ⟨ha, trivial⟩
  · intro d1 s1 k h
    rw [move_assign_eq ha hb] at h
    simp only [Option.some.injEq, Prod.mk.injEq] at h
    obtain ⟨rfl, rfl, rfl⟩ := h
    exact ⟨hb, trivial⟩
  · intro a1 k h
    rw [self_move_assign_eq ha] at h
    simp only [Option.some.injEq, Prod.mk.injEq] at h
    obtain ⟨rfl, rfl⟩ := h
    exact trivial
  · intro a1 b1 h
    rw [swap_eq ha hb] at h
    simp only [Option.some.injEq, Prod.mk.injEq] at h
    obtain ⟨rfl, rfl⟩ := h
    exact ⟨hb, ha⟩
  · intro s x
    exact ⟨rfl, call_no_invalid_access ha s x⟩

/-- Witness for C6 at a populated container and an empty one. -/
theorem slot_table_consistency_witness :
    WF (inplace_task.mk_from pFive) ∧
    WF (inplace_task.mk_default : inplace_task Nat Nat Unit) ∧
    WF (inplace_task.mk_from qOne) ∧
    (∀ s x, inplace_task.call_state (inplace_task.mk_from pFive) s x =
        (inplace_task.call (inplace_task.mk_from pFive) s x, inplace_task.mk_from pFive) ∧
      inplace_task.call (inplace_task.mk_from pFive) s x ≠
        Except.error TaskError.invalidAccess) :=
  ⟨rfl, trivial, rfl,
    (slot_table_consistency qOne (inplace_task.mk_from pFive) inplace_task.mk_default
      rfl trivial).2.2.2.2.2.2⟩

/-- Claim C7: move-assignment into a distinct destination first destroys the
destination's current payload through the destination's own pre-assignment
table (the number of payloads destroyed is exactly the number the destination
held, 1 if populated and 0 if empty), and afterwards the destination holds
exactly what the source held while the source is reset to the empty-sentinel
state. -/
theorem move_assign_destroys_dst_first {σ R A : Type} (d s : inplace_task σ R A)
    (hd : WF d) (hs : WF s) :
    inplace_task.move_assign d s = some (s, inplace_task.mk_default, lives d) ∧
    (inplace_task.mk_default : inplace_task σ R A).is_empty = true :=
  ⟨move_assign_eq hd hs, rfl⟩

/-- Witness for C7: assigning a container holding qTwo over a container
holding qOne destroys exactly one payload (the old qOne). -/
theorem move_assign_destroys_dst_first_witness :
    WF (inplace_task.mk_from qOne) ∧ WF (inplace_task.mk_from qTwo) ∧
    inplace_task.move_assign (inplace_task.mk_from qOne) (inplace_task.mk_from qTwo) =
      some (inplace_task.mk_from qTwo, inplace_task.mk_default, 1) :=
  ⟨rfl, rfl,
    (move_assign_destroys_dst_first (inplace_task.mk_from qOne) (inplace_task.mk_from qTwo)
      rfl rfl).1⟩

/-- Claim C8: there is exactly one dispatch table per concrete payload type:
construction binds the container's table pointer to that payload type's
registry entry, two containers constructed from payloads of the same concrete
type are bound to the identical table, containers constructed from payloads of
distinct concrete types are bound to distinct tables, and no per-type table is
the empty sentinel.  (That the C++ function-local static is created on first
use and reused afterwards is what makes table identity well defined; the
registry is the map oper_table_get.) -/
theorem one_table_per_type {σ R A : Type} (p q : Payload σ R A) :
    (inplace_task.mk_from p).oper_ptr = oper_table_get p.tid ∧
    ((inplace_task.mk_from p).oper_ptr = (inplace_task.mk_from q).oper_ptr ↔ p.tid = q.tid) ∧
    oper_table_get p.tid ≠ oper_table_get_empty := by
  refine ⟨rfl, ?_, ?_⟩
  · simp [inplace_task.mk_from, oper_table_get]
  · simp [oper_table_get, oper_table_get_empty]

/-- Claim C9 (implicit): self-move-assignment destroys the held payload, if
any, exactly once, and leaves the container in the empty-sentinel state, well
formed and safe to destroy or reuse. -/
theorem self_move_assign_empties {σ R A : Type} (a : inplace_task σ R A) (ha : WF a) :
    inplace_task.self_move_assign a = some (inplace_task.mk_default, lives a) ∧
    (inplace_task.mk_default : inplace_task σ R A).is_empty = true ∧
    WF (inplace_task.mk_default : inplace_task σ R A) ∧
    inplace_task.destruct (inplace_task.mk_default : inplace_task σ R A) = some 0 :=
  ⟨self_move_assign_eq ha, rfl, trivial, rfl⟩

/-- Witness for C9 at a populated container: its payload is destroyed once and
the container ends empty. -/
theorem self_move_assign_empties_witness :
    WF (inplace_task.mk_from pFive) ∧
    inplace_task.self_move_assign (inplace_task.mk_from pFive) =
      some (inplace_task.mk_default, 1) :=
  ⟨rfl, (self_move_assign_empties (inplace_task.mk_from pFive) rfl).1⟩

/-- Claim C10 (implicit): invoking an empty container raises the error without
touching the container's state: the container after the failed call is exactly
the container before it, still empty with the empty-sentinel table and an
untouched slot, and it remains safe to destroy (destroying nothing), to
move-assign into, or to reuse. -/
theorem failed_invoke_preserves_state {σ R A : Type} (t : inplace_task σ R A)
    (s : σ) (x : A) (he : t.is_empty = true) (hw : WF t) :
    inplace_task.call_state t s x = (Except.error TaskError.badFunctionCall, t) ∧
    inplace_task.destruct t = some 0 ∧
    (∀ u, WF u → inplace_task.move_assign t u = some (u, inplace_task.mk_default, 0)) := by
  have hop : t.oper_ptr = OperPtr.empty_oper := of_decide_eq_true he
  have ht : t = inplace_task.mk_default := by
    rcases wf_cases t hw with rfl | ⟨q, rfl⟩
    · rfl
    · exact absurd hop (by simp [inplace_task.mk_from, oper_table_get])
  subst ht
  refine ⟨rfl, rfl, ?_⟩
  intro u hu
  exact @move_assign_eq σ R A inplace_task.mk_default u trivial hu

/-- Witness for C10 at the default-constructed container. -/
theorem failed_invoke_preserves_state_witness :
    (inplace_task.mk_default : inplace_task Nat Nat Unit).is_empty = true ∧
    WF (inplace_task.mk_default : inplace_task Nat Nat Unit) ∧
    inplace_task.call_state (inplace_task.mk_default : inplace_task Nat Nat Unit) 0 () =
      (Except.error TaskError.badFunctionCall, inplace_task.mk_default) :=
  ⟨rfl, trivial,
    (failed_invoke_preserves_state (inplace_task.mk_default : inplace_task Nat Nat Unit)
      0 () rfl trivial).1⟩

end srslte
